import Mathlib

/-!
Verification of the tinybird HTTP client library.

The development shallowly embeds the request-execution engine
(`executeWithRetry` / `executeRawWithRetry` / `handleResponse` from the
internal httpclient package), the query-string encoder
(`StructToQueryParams` and its helpers), the `SendEvents` and `Analyze`
endpoint operations, and Go's `url.QueryEscape` used by them.

Network attempts are modelled by an oracle `Nat → AttemptOutcome` giving
the outcome of each physical attempt (a transport-level failure of
`http.Client.Do`, or an HTTP response with a status code and a body).
The executor produces a trace of events (sleeps and attempts) next to its
result, so that attempt counts and backoff delays are observable.
JSON decoding (`json.Unmarshal`) is modelled by a caller-supplied partial
function `decode : String → Option α`; the compression codecs (gzip, zstd
— external libraries the repository only calls) are modelled as abstract
byte transforms passed in as parameters.
-/

namespace Tinybird

/-- Errors produced by the client, mirroring the `fmt.Errorf` values in the
Go source. Only the structure relevant to classification is kept; the
wrapped error of `max retries exceeded: %w` is carried as a payload. -/
inductive GoErr where
  | requestFailed (msg : String)
  | httpError (status : Nat) (body : String)
  | decodeError
  | maxRetriesExceeded (last : GoErr)
  | maxRetriesExceededNil
  | unsupportedEncoding (enc : String)
  | unsupportedInputType (typeName : String)
  deriving DecidableEq, Repr

/-- Wrapper for `fmt.Errorf("max retries exceeded: %w", lastErr)` — in Go `lastErr` is
an interface value that is nil exactly when the loop body never ran. -/
def mkMaxRetriesExceeded : Option GoErr → GoErr
  | some e => GoErr.maxRetriesExceeded e
  | none => GoErr.maxRetriesExceededNil

/-- The outcome of one physical attempt: `c.httpClient.Do(req)` either
returns an error (transport failure) or a response with a status and body. -/
inductive AttemptOutcome where
  | transportErr (msg : String)
  | response (status : Nat) (body : String)
  deriving DecidableEq, Repr

/-- Observable events of one executor run: a `time.Sleep(d)` and the start
of the physical attempt with a given index. -/
inductive Event where
  | sleep (d : Nat)
  | attempt (idx : Nat)
  deriving DecidableEq, Repr

def Event.isAttempt : Event → Bool
  | .attempt _ => true
  | _ => false

/-- Number of physical attempts recorded in a trace. -/
def attemptCount (evs : List Event) : Nat :=
  (evs.filter Event.isAttempt).length

/-- Events of one loop iteration with attempt index `a`: the code sleeps
`RetryDelay * attempt` when `attempt > 0`, then performs the attempt. -/
def iterEvents (delay a : Nat) : List Event :=
  (if a > 0 then [Event.sleep (delay * a)] else []) ++ [Event.attempt a]

/-- Model of `handleResponse` from the Go httpclient: on 2xx, decode the body into
the result target when a target was supplied, the status is not 204 and the
body is non-empty; otherwise succeed leaving the target alone. On a non-2xx
status produce the `HTTP <status>` error carrying the body text. -/
def handleResponse {α : Type} (decode : String → Option α) (target : Option α)
    (status : Nat) (body : String) : Except GoErr (Option α) :=
  if 200 ≤ status ∧ status < 300 then
    if target.isSome ∧ status ≠ 204 ∧ body ≠ "" then
      match decode body with
      | some v => Except.ok (some v)
      | none => Except.error GoErr.decodeError
    else Except.ok target
  else Except.error (GoErr.httpError status body)

/-- What one iteration of the retry loop decides to do after its attempt. -/
inductive StepDecision (α : Type) where
  | success (t : Option α)
  | terminal (e : GoErr)
  | retry (e : GoErr)
  deriving DecidableEq, Repr

/-- One iteration of `executeWithRetry`/`executeRawWithRetry` after the
request was issued: a transport error is recorded and retried; otherwise
the response is classified — success returns, 4xx other than 429 returns
immediately, 5xx or 429 records the error and retries, and anything else
returns the error. -/
def retryStep {α : Type} (decode : String → Option α) (target : Option α) :
    AttemptOutcome → StepDecision α
  | .transportErr msg => StepDecision.retry (GoErr.requestFailed msg)
  | .response s body =>
    match handleResponse decode target s body with
    | Except.ok t => StepDecision.success t
    | Except.error e =>
      if 400 ≤ s ∧ s < 500 ∧ s ≠ 429 then StepDecision.terminal e
      else if 500 ≤ s ∨ s = 429 then StepDecision.retry e
      else StepDecision.terminal e

/-- The retry loop, structured on the remaining number of iterations
(`fuel`); `a` is the current attempt index and `lastErr` the last recorded
error. When the fuel runs out the loop has executed `attempt ≤ MaxRetries`
to completion and returns the `max retries exceeded` wrapper. -/
def retryGo {α : Type} (oracle : Nat → AttemptOutcome) (decode : String → Option α)
    (target : Option α) (delay : Nat) :
    Nat → Nat → Option GoErr → List Event × Except GoErr (Option α)
  | 0, _, lastErr => ([], Except.error (mkMaxRetriesExceeded lastErr))
  | fuel + 1, a, _lastErr =>
    match retryStep decode target (oracle a) with
    | StepDecision.success t => (iterEvents delay a, Except.ok t)
    | StepDecision.terminal e => (iterEvents delay a, Except.error e)
    | StepDecision.retry e =>
      (iterEvents delay a ++ (retryGo oracle decode target delay fuel (a + 1) (some e)).1,
       (retryGo oracle decode target delay fuel (a + 1) (some e)).2)

/-- Model of `executeWithRetry` / `executeRawWithRetry`: run the loop for attempt
indices `0` to `maxRetries` inclusive (`maxRetries + 1` iterations),
starting with no recorded error. -/
def runRetry {α : Type} (maxRetries delay : Nat) (oracle : Nat → AttemptOutcome)
    (decode : String → Option α) (target : Option α) :
    List Event × Except GoErr (Option α) :=
  retryGo oracle decode target delay (maxRetries + 1) 0 none

/-! ### Go `net/url` query escaping

`url.QueryEscape` escapes a string so it can be placed inside a URL query:
ASCII letters, digits and `-._~` are kept, a space becomes `+`, and every
other byte becomes `%XX` with uppercase hex digits. -/

def isAlphaNumByte (b : Nat) : Bool :=
  (65 ≤ b && b ≤ 90) || (97 ≤ b && b ≤ 122) || (48 ≤ b && b ≤ 57)

/-- Go's `shouldEscape` in query-component mode. -/
def shouldEscapeQuery (b : Nat) : Bool :=
  !(isAlphaNumByte b || b = 45 || b = 95 || b = 46 || b = 126)

/-- Uppercase hex digit for `n < 16`, as in Go's `"0123456789ABCDEF"`. -/
def hexUpperDigit (n : Nat) : Char :=
  if n < 10 then Char.ofNat (48 + n) else Char.ofNat (55 + n)

/-- Escape a single byte the way `url.QueryEscape` does. -/
def escapeQueryByte (b : Nat) : String :=
  if b = 32 then "+"
  else if shouldEscapeQuery b then
    String.mk ['%', hexUpperDigit (b / 16), hexUpperDigit (b % 16)]
  else String.mk [Char.ofNat b]

def queryEscapeBytes (bs : List Nat) : String :=
  String.join (bs.map escapeQueryByte)

/-- Go `url.QueryEscape` over the UTF-8 bytes of a string. -/
def queryEscape (s : String) : String :=
  queryEscapeBytes (s.toUTF8.toList.map (fun b => b.toNat))

/-! ### Client facade configuration (relevant fields of `ClientOptions`) -/

structure ClientOptions where
  protocol : String
  host : String
  apiVersion : String
  deriving DecidableEq, Repr

/-! ### `SendEvents` (src/events.go)

The operation is modelled up to its single network effect: it either
returns the `PostRaw` request descriptor it hands to the HTTP client, or
fails with a configuration error before any network call is made. The
compression codecs live in external libraries, so they enter as abstract
byte transforms (`gzipCompress`, `zstdCompress`). -/

structure SendEventsOptions where
  wait : Bool
  compress : Bool
  compressionEncoding : String
  format : String
  deriving DecidableEq, Repr

/-- The request descriptor handed to `httpClient.PostRaw`. -/
structure PostRawCall where
  url : String
  body : List Nat
  contentType : String
  contentEncoding : String
  deriving DecidableEq, Repr

def SendEvents (gzipCompress zstdCompress : List Nat → List Nat)
    (co : ClientOptions) (datasourceName : String) (data : List Nat)
    (options : Option SendEventsOptions) : Except GoErr PostRawCall :=
  let opts := options.getD
    { wait := false, compress := false, compressionEncoding := "", format := "" }
  let reqUrl := co.protocol ++ "://" ++ co.host ++ "/" ++ co.apiVersion
    ++ "/events?name=" ++ queryEscape datasourceName
  let reqUrl := if opts.wait then reqUrl ++ "&wait=true" else reqUrl
  let reqUrl :=
    if opts.format ≠ "" then reqUrl ++ "&format=" ++ queryEscape opts.format
    else reqUrl
  let contentType :=
    if opts.format = "json" then "application/json" else "application/x-ndjson"
  if opts.compress then
    let encoding :=
      if opts.compressionEncoding = "" then "gzip" else opts.compressionEncoding
    if encoding = "gzip" then
      Except.ok { url := reqUrl, body := gzipCompress data,
                  contentType := contentType, contentEncoding := encoding }
    else if encoding = "zstd" then
      Except.ok { url := reqUrl, body := zstdCompress data,
                  contentType := contentType, contentEncoding := encoding }
    else
      Except.error (GoErr.unsupportedEncoding encoding)
  else
    Except.ok { url := reqUrl, body := data,
                contentType := contentType, contentEncoding := "" }

/-! ### `Analyze` (src/analyze.go)

Input is polymorphic in Go (`interface{}`); the type switch is modelled by
an explicit sum with an `other` constructor carrying the dynamic type name
used in the error message of the default branch. The result is the single
request the operation issues, or the configuration error if none is. -/

inductive AnalyzeInput where
  | bytes (b : List Nat)
  | str (s : String)
  | other (typeName : String)
  deriving DecidableEq, Repr

/-- An issued HTTP request: a multipart file upload (`PostMultipart`) or a
raw request (`PostRaw`, whose Go `body []byte` may be nil). -/
inductive HttpCall where
  | postMultipart (url fieldName fileName : String) (fileData : List Nat)
  | postRaw (url : String) (body : Option (List Nat))
      (contentType contentEncoding : String)
  deriving DecidableEq, Repr

def analyzeBaseUrl (co : ClientOptions) : String :=
  co.protocol ++ "://" ++ co.host ++ "/" ++ co.apiVersion ++ "/analyze"

def Analyze (co : ClientOptions) (input : AnalyzeInput) : Except GoErr HttpCall :=
  match input with
  | AnalyzeInput.bytes v =>
    Except.ok (HttpCall.postMultipart (analyzeBaseUrl co) "file" "data" v)
  | AnalyzeInput.str v =>
    Except.ok (HttpCall.postRaw (analyzeBaseUrl co ++ "?url=" ++ queryEscape v)
      none "" "")
  | AnalyzeInput.other t =>
    Except.error (GoErr.unsupportedInputType t)

/-! ### `StructToQueryParams` (src/internal/httpclient/struct.go)

Go reflection over a struct value is embedded as a list of fields, each
carrying its name, its `url`/`query`/`json` tag values (empty string when
the tag is absent, as `Tag.Get` reports), its exportedness and its value.
Field values cover the kinds the encoder handles: strings, signed and
unsigned integers, booleans, pointers and slices. -/

inductive FieldValue where
  | str (s : String)
  | int (i : Int)
  | uint (n : Nat)
  | bool (b : Bool)
  | ptr (p : Option FieldValue)
  | slice (vs : List FieldValue)

structure Field where
  name : String
  urlTag : String
  queryTag : String
  jsonTag : String
  exported : Bool
  value : FieldValue

/-- Model of `strings.Split(tag, ",")[0]`: the tag text before the first comma. -/
def firstTagName (tag : String) : String :=
  String.mk (tag.toList.takeWhile (fun c => c ≠ ','))

/-- Model of `strings.ToLower`: lowercase the string character by character. -/
def lowerName (s : String) : String :=
  String.mk (s.toList.map Char.toLower)

/-- Model of `getParamName`: the `url` tag first, then `query`, then `json`, else
the lowercased field name. -/
def getParamName (f : Field) : String :=
  if f.urlTag ≠ "" then firstTagName f.urlTag
  else if f.queryTag ≠ "" then firstTagName f.queryTag
  else if f.jsonTag ≠ "" then firstTagName f.jsonTag
  else lowerName f.name

/-- Model of `isZeroValue`: length zero for strings and slices, `false` for bools,
`0` for the numeric kinds, nil for pointers. -/
def isZeroValue : FieldValue → Bool
  | FieldValue.str s => s == ""
  | FieldValue.int i => i == 0
  | FieldValue.uint n => n == 0
  | FieldValue.bool b => !b
  | FieldValue.ptr p => p.isNone
  | FieldValue.slice vs => vs.isEmpty

mutual

/-- Model of `fieldToStrings`: format a field value as the strings that become
query-parameter values (slices expand elementwise, nil pointers to none). -/
def fieldToStrings : FieldValue → List String
  | FieldValue.str s => [s]
  | FieldValue.int i => [toString i]
  | FieldValue.uint n => [toString n]
  | FieldValue.bool b => [if b then "true" else "false"]
  | FieldValue.ptr none => []
  | FieldValue.ptr (some v) => fieldToStrings v
  | FieldValue.slice vs => fieldToStringsList vs

def fieldToStringsList : List FieldValue → List String
  | [] => []
  | v :: rest => fieldToStrings v ++ fieldToStringsList rest

end

/-- The field loop of `StructToQueryParams`: skip unexported fields, fields
whose resolved parameter name is empty or `-`, and zero values; the rest
contribute one `(name, value)` pair per formatted string. -/
def collectPairs : List Field → List (String × String)
  | [] => []
  | f :: rest =>
    if !f.exported then collectPairs rest
    else if getParamName f = "" ∨ getParamName f = "-" then collectPairs rest
    else if isZeroValue f.value then collectPairs rest
    else (fieldToStrings f.value).map (fun v => (getParamName f, v)) ++ collectPairs rest

/-- Keep the first occurrence of each key, dropping later duplicates;
`seen` accumulates the keys already emitted. -/
def dedupKeys (seen : List String) : List String → List String
  | [] => []
  | k :: rest =>
    if k ∈ seen then dedupKeys seen rest
    else k :: dedupKeys (k :: seen) rest

/-- Insertion into a sorted list under the lexicographic string order used
by Go's `sort.Strings`. -/
def insertSorted (s : String) : List String → List String
  | [] => [s]
  | t :: rest => if s < t then s :: t :: rest else t :: insertSorted s rest

def sortStrings : List String → List String
  | [] => []
  | s :: rest => insertSorted s (sortStrings rest)

/-- Model of `url.Values.Encode`: sort the keys, then for each key in order emit
`escape(key)=escape(value)` for each of its values in insertion order,
joined by `&`. -/
def valuesEncode (pairs : List (String × String)) : String :=
  let keys := sortStrings (dedupKeys [] (pairs.map Prod.fst))
  let parts := (keys.map (fun k =>
    (pairs.filter (fun p => p.1 == k)).map (fun p =>
      queryEscape k ++ "=" ++ queryEscape p.2))).flatten
  String.intercalate "&" parts

/-- The input of `StructToQueryParams` after Go's dynamic inspection:
nil, a nil pointer, a pointer to a struct, a struct, or anything else. -/
inductive StructInput where
  | nilInput
  | nilPtr
  | ptrTo (fields : List Field)
  | strukt (fields : List Field)
  | nonStruct

def StructToQueryParams : StructInput → String
  | StructInput.nilInput => ""
  | StructInput.nilPtr => ""
  | StructInput.ptrTo fields => valuesEncode (collectPairs fields)
  | StructInput.strukt fields => valuesEncode (collectPairs fields)
  | StructInput.nonStruct => ""

/-- The suspension schedule the spec states for the retry loop: no
suspension before attempt 0, and a suspension of exactly `retryDelay * a`
immediately before each attempt `a > 0` (linear backoff). -/
def specBackoffTrace (delay k : Nat) : List Event :=
  ((List.range k).map (fun a =>
    if a = 0 then [Event.attempt 0]
    else [Event.sleep (delay * a), Event.attempt a])).flatten

/-- Concrete field list used to witness the empty encoding of a
default-valued record: every exported field holds its zero value, and one
unexported field holds a non-zero value (Go skips it). -/
def zeroFieldsExample : List Field :=
  [⟨"Name", "", "", "", true, FieldValue.str ""⟩,
   ⟨"Limit", "lim", "", "", true, FieldValue.int 0⟩,
   ⟨"Count", "", "", "", true, FieldValue.uint 0⟩,
   ⟨"Flag", "", "f", "", true, FieldValue.bool false⟩,
   ⟨"Ptr", "", "", "p", true, FieldValue.ptr none⟩,
   ⟨"Tags", "", "", "", true, FieldValue.slice []⟩,
   ⟨"secret", "", "", "", false, FieldValue.str "nonzero"⟩]

/-! ## Helper lemmas about the retry loop -/

theorem attemptCount_append (xs ys : List Event) :
    attemptCount (xs ++ ys) = attemptCount xs + attemptCount ys := by
  simp [attemptCount, List.filter_append]

theorem attemptCount_iterEvents (delay a : Nat) :
    attemptCount (iterEvents delay a) = 1 := by
  by_cases h : a > 0 <;> simp [attemptCount, iterEvents, h, Event.isAttempt]

theorem retryGo_transport_all {α : Type} (oracle : Nat → AttemptOutcome)
    (decode : String → Option α) (target : Option α) (delay : Nat) (msgs : Nat → String)
    (h : ∀ i, oracle i = AttemptOutcome.transportErr (msgs i)) :
    ∀ (fuel a : Nat) (lastErr : Option GoErr), 1 ≤ fuel →
      (retryGo oracle decode target delay fuel a lastErr).2
        = Except.error (GoErr.maxRetriesExceeded (GoErr.requestFailed (msgs (a + fuel - 1))))
      ∧ attemptCount (retryGo oracle decode target delay fuel a lastErr).1 = fuel := by
  intro fuel
  induction fuel with
  | zero => intro a lastErr h0; exact absurd h0 (by omega)
  | succ m ih =>
    intro a lastErr _
    have hstep : retryStep decode target (oracle a)
        = StepDecision.retry (GoErr.requestFailed (msgs a)) := by
      rw [h a]; rfl
    cases Nat.eq_zero_or_pos m with
    | inl hm =>
      subst hm
      constructor
      · simp [retryGo, hstep, mkMaxRetriesExceeded]
      · simp only [retryGo, hstep]
        rw [attemptCount_append, attemptCount_iterEvents]
        simp [retryGo, attemptCount]
    | inr hm =>
      obtain ⟨h1, h2⟩ := ih (a + 1) (some (GoErr.requestFailed (msgs a))) hm
      constructor
      · simp only [retryGo, hstep]
        rw [h1]
        have harith : a + 1 + m - 1 = a + (m + 1) - 1 := by omega
        rw [harith]
      · simp only [retryGo, hstep]
        rw [attemptCount_append, attemptCount_iterEvents, h2]
        omega

/-- C1: with a retry ceiling `n ≥ 0` and a transport that fails on every
attempt (`http.Client.Do` errors each time), the executor performs exactly
`n + 1` attempts and returns the `max retries exceeded` error wrapping the
last recorded attempt error. -/
theorem retry_transport_exhaustion {α : Type} (n delay : Nat)
    (oracle : Nat → AttemptOutcome) (decode : String → Option α) (target : Option α)
    (msgs : Nat → String)
    (h : ∀ i, oracle i = AttemptOutcome.transportErr (msgs i)) :
    (runRetry n delay oracle decode target).2
      = Except.error (GoErr.maxRetriesExceeded (GoErr.requestFailed (msgs n)))
    ∧ attemptCount (runRetry n delay oracle decode target).1 = n + 1 := by
  have := retryGo_transport_all oracle decode target delay msgs h (n + 1) 0 none (by omega)
  simpa [runRetry] using this

/-- Witness for C1 at `n = 2` with a transport failing `"boom"` each time:
three attempts, and the exceeded error wraps the last `request failed`. -/
theorem retry_transport_exhaustion_witness :
    (∀ i : Nat, (fun _ => AttemptOutcome.transportErr "boom") i
        = AttemptOutcome.transportErr ((fun _ : Nat => "boom") i))
    ∧ ((runRetry 2 10 (fun _ => AttemptOutcome.transportErr "boom")
          (fun _ => (none : Option Nat)) none).2
        = Except.error (GoErr.maxRetriesExceeded (GoErr.requestFailed "boom"))
      ∧ attemptCount (runRetry 2 10 (fun _ => AttemptOutcome.transportErr "boom")
          (fun _ => (none : Option Nat)) none).1 = 2 + 1) :=
  ⟨fun _ => rfl,
   retry_transport_exhaustion 2 10 _ _ none (fun _ => "boom") (fun _ => rfl)⟩

theorem handleResponse_not2xx {α : Type} (decode : String → Option α)
    (target : Option α) (s : Nat) (body : String) (h : ¬(200 ≤ s ∧ s < 300)) :
    handleResponse decode target s body = Except.error (GoErr.httpError s body) := by
  unfold handleResponse
  rw [if_neg h]

theorem retryStep_terminal_4xx {α : Type} (decode : String → Option α)
    (target : Option α) (s : Nat) (body : String)
    (h : 400 ≤ s ∧ s < 500 ∧ s ≠ 429) :
    retryStep decode target (AttemptOutcome.response s body)
      = StepDecision.terminal (GoErr.httpError s body) := by
  simp only [retryStep, handleResponse_not2xx decode target s body (by omega)]
  rw [if_pos h]

theorem retryStep_retry_5xx_or_429 {α : Type} (decode : String → Option α)
    (target : Option α) (s : Nat) (body : String) (h : 500 ≤ s ∨ s = 429) :
    retryStep decode target (AttemptOutcome.response s body)
      = StepDecision.retry (GoErr.httpError s body) := by
  simp only [retryStep, handleResponse_not2xx decode target s body (by omega)]
  rw [if_neg (by omega), if_pos h]

theorem mem_attempt_iterEvents (delay a : Nat) :
    Event.attempt a ∈ iterEvents delay a := by
  simp [iterEvents]

theorem retryGo_terminal_eq {α : Type} (oracle : Nat → AttemptOutcome)
    (decode : String → Option α) (target : Option α) (delay a fuel : Nat)
    (lastErr : Option GoErr) (e : GoErr)
    (hstep : retryStep decode target (oracle a) = StepDecision.terminal e)
    (hfuel : 1 ≤ fuel) :
    retryGo oracle decode target delay fuel a lastErr
      = (iterEvents delay a, Except.error e) := by
  obtain ⟨m, rfl⟩ : ∃ m, fuel = m + 1 := ⟨fuel - 1, by omega⟩
  simp [retryGo, hstep]

theorem retryGo_head_attempt {α : Type} (oracle : Nat → AttemptOutcome)
    (decode : String → Option α) (target : Option α) (delay a fuel : Nat)
    (lastErr : Option GoErr) (hfuel : 1 ≤ fuel) :
    Event.attempt a ∈ (retryGo oracle decode target delay fuel a lastErr).1 := by
  obtain ⟨m, rfl⟩ : ∃ m, fuel = m + 1 := ⟨fuel - 1, by omega⟩
  rcases hs : retryStep decode target (oracle a) with t | e | e <;>
    simp [retryGo, hs, mem_attempt_iterEvents]

theorem retryGo_retry_next_attempt {α : Type} (oracle : Nat → AttemptOutcome)
    (decode : String → Option α) (target : Option α) (delay a fuel : Nat)
    (lastErr : Option GoErr) (e : GoErr)
    (hstep : retryStep decode target (oracle a) = StepDecision.retry e)
    (hfuel : 2 ≤ fuel) :
    Event.attempt (a + 1) ∈ (retryGo oracle decode target delay fuel a lastErr).1 := by
  obtain ⟨m, rfl⟩ : ∃ m, fuel = m + 2 := ⟨fuel - 2, by omega⟩
  simp only [retryGo, hstep]
  exact List.mem_append_right _
    (retryGo_head_attempt oracle decode target delay (a + 1) (m + 1) (some e) (by omega))

/-- C2: an attempt receiving a 5xx status or 429 records the HTTP error and
the loop continues to the next attempt (when budget remains), whereas an
attempt receiving any other 4xx status returns its HTTP error immediately:
the loop produces only that attempt's events and stops. -/
theorem retry_status_classification {α : Type} (decode : String → Option α)
    (target : Option α) (delay : Nat) (oracle oracleB : Nat → AttemptOutcome)
    (s r : Nat) (body bodyB : String) (a b fuel fuelB : Nat)
    (lastErr lastErrB : Option GoErr)
    (hs : oracle a = AttemptOutcome.response s body)
    (h5 : (500 ≤ s ∧ s ≤ 599) ∨ s = 429)
    (hfuel : 2 ≤ fuel)
    (hr : oracleB b = AttemptOutcome.response r bodyB)
    (h4 : 400 ≤ r ∧ r < 500 ∧ r ≠ 429)
    (hfuelB : 1 ≤ fuelB) :
    retryStep decode target (AttemptOutcome.response s body)
        = StepDecision.retry (GoErr.httpError s body)
    ∧ Event.attempt (a + 1) ∈ (retryGo oracle decode target delay fuel a lastErr).1
    ∧ retryGo oracleB decode target delay fuelB b lastErrB
        = (iterEvents delay b, Except.error (GoErr.httpError r bodyB)) := by
  have hstep5 : retryStep decode target (oracle a)
      = StepDecision.retry (GoErr.httpError s body) := by
    rw [hs]
    exact retryStep_retry_5xx_or_429 decode target s body (by omega)
  have hstep4 : retryStep decode target (oracleB b)
      = StepDecision.terminal (GoErr.httpError r bodyB) := by
    rw [hr]
    exact retryStep_terminal_4xx decode target r bodyB h4
  refine ⟨?_, ?_, ?_⟩
  · exact retryStep_retry_5xx_or_429 decode target s body (by omega)
  · exact retryGo_retry_next_attempt oracle decode target delay a fuel lastErr _ hstep5 hfuel
  · exact retryGo_terminal_eq oracleB decode target delay b fuelB lastErrB _ hstep4 hfuelB

/-- Witness for C2: a 503 on attempt 0 leads to attempt 1; a 404 on
attempt 0 returns `HTTP 404` after exactly that one attempt. -/
theorem retry_status_classification_witness :
    ((fun _ : Nat => AttemptOutcome.response 503 "e5") 0 = AttemptOutcome.response 503 "e5"
      ∧ ((500 ≤ 503 ∧ 503 ≤ 599) ∨ 503 = 429) ∧ 2 ≤ 2
      ∧ (fun _ : Nat => AttemptOutcome.response 404 "e4") 0 = AttemptOutcome.response 404 "e4"
      ∧ (400 ≤ 404 ∧ 404 < 500 ∧ 404 ≠ 429) ∧ 1 ≤ 1)
    ∧ (retryStep (fun _ => (none : Option Nat)) none (AttemptOutcome.response 503 "e5")
        = StepDecision.retry (GoErr.httpError 503 "e5")
      ∧ Event.attempt 1 ∈ (retryGo (fun _ => AttemptOutcome.response 503 "e5")
          (fun _ => (none : Option Nat)) none 7 2 0 none).1
      ∧ retryGo (fun _ => AttemptOutcome.response 404 "e4")
          (fun _ => (none : Option Nat)) none 7 1 0 none
        = (iterEvents 7 0, Except.error (GoErr.httpError 404 "e4"))) :=
  ⟨⟨rfl, by omega, by omega, rfl, by omega, by omega⟩,
   retry_status_classification (fun _ => (none : Option Nat)) none 7
     (fun _ => AttemptOutcome.response 503 "e5") (fun _ => AttemptOutcome.response 404 "e4")
     503 404 "e5" "e4" 0 0 2 1 none none rfl (by omega) (by omega) rfl (by omega) (by omega)⟩

theorem handleResponse_decode_failure {α : Type} (decode : String → Option α)
    (t : α) (s : Nat) (body : String) (h2 : 200 ≤ s) (h3 : s < 300)
    (h204 : s ≠ 204) (hbody : body ≠ "") (hdec : decode body = none) :
    handleResponse decode (some t) s body = Except.error GoErr.decodeError := by
  unfold handleResponse
  rw [if_pos ⟨h2, h3⟩, if_pos ⟨by simp, h204, hbody⟩, hdec]

/-- C3: a 2xx response whose non-empty body fails to decode into the
supplied result target is a terminal error: the loop produces only that
attempt's events and returns the decode error, with no further attempts. -/
theorem retry_decode_failure_terminal {α : Type} (oracle : Nat → AttemptOutcome)
    (decode : String → Option α) (t : α) (delay a fuel : Nat)
    (lastErr : Option GoErr) (s : Nat) (body : String)
    (hor : oracle a = AttemptOutcome.response s body)
    (h2 : 200 ≤ s) (h3 : s < 300) (h204 : s ≠ 204) (hbody : body ≠ "")
    (hdec : decode body = none) (hfuel : 1 ≤ fuel) :
    retryGo oracle decode (some t) delay fuel a lastErr
      = (iterEvents delay a, Except.error GoErr.decodeError) := by
  have hstep : retryStep decode (some t) (oracle a)
      = StepDecision.terminal GoErr.decodeError := by
    rw [hor]
    simp only [retryStep,
      handleResponse_decode_failure decode t s body h2 h3 h204 hbody hdec]
    rw [if_neg (by omega), if_neg (by omega)]
  exact retryGo_terminal_eq oracle decode (some t) delay a fuel lastErr _ hstep hfuel

/-- Witness for C3: a 200 response with body `"bad"` that the decoder
rejects stops the loop after one attempt with the decode error. -/
theorem retry_decode_failure_terminal_witness :
    ((fun _ : Nat => AttemptOutcome.response 200 "bad") 0
        = AttemptOutcome.response 200 "bad"
      ∧ 200 ≤ 200 ∧ 200 < 300 ∧ 200 ≠ 204 ∧ "bad" ≠ ""
      ∧ (fun _ : String => (none : Option Nat)) "bad" = none ∧ 1 ≤ 3)
    ∧ retryGo (fun _ => AttemptOutcome.response 200 "bad")
        (fun _ => (none : Option Nat)) (some 0) 7 3 0 none
      = (iterEvents 7 0, Except.error GoErr.decodeError) :=
  ⟨⟨rfl, by omega, by omega, by omega, by decide, rfl, by omega⟩,
   retry_decode_failure_terminal (fun _ => AttemptOutcome.response 200 "bad")
     (fun _ => (none : Option Nat)) 0 7 0 3 none 200 "bad" rfl (by omega) (by omega)
     (by omega) (by decide) rfl (by omega)⟩

/-- C10: on a 2xx response, if the status is 204, or the body is empty, or
no decode target was supplied, the call succeeds and the target is
returned unchanged — the result holds for every decode function, so no
JSON decoding is consulted. -/
theorem handleResponse_success_no_decode {α : Type} (decode : String → Option α)
    (target : Option α) (s : Nat) (body : String) (h2 : 200 ≤ s) (h3 : s < 300)
    (h : s = 204 ∨ body = "" ∨ target = none) :
    handleResponse decode target s body = Except.ok target := by
  unfold handleResponse
  rw [if_pos ⟨h2, h3⟩]
  have hneg : ¬(target.isSome ∧ s ≠ 204 ∧ body ≠ "") := by
    rcases h with h | h | h
    · exact fun hc => hc.2.1 h
    · exact fun hc => hc.2.2 h
    · subst h; exact fun hc => by simpa using hc.1
  rw [if_neg hneg]

/-- Witness for C10: a 204 response with a non-empty body and a decoder
that would succeed still returns the target `some 5` untouched. -/
theorem handleResponse_success_no_decode_witness :
    (200 ≤ 204 ∧ 204 < 300 ∧ ((204 : Nat) = 204 ∨ ("x" : String) = "" ∨ (some 5 : Option Nat) = none))
    ∧ handleResponse (fun _ => some 1) (some 5) 204 "x" = Except.ok (some 5) :=
  ⟨⟨by omega, by omega, Or.inl rfl⟩,
   handleResponse_success_no_decode (fun _ => some 1) (some 5) 204 "x"
     (by omega) (by omega) (Or.inl rfl)⟩

theorem iterEvents_eq_spec (delay a : Nat) :
    iterEvents delay a
      = if a = 0 then [Event.attempt 0]
        else [Event.sleep (delay * a), Event.attempt a] := by
  by_cases h : a = 0
  · subst h; simp [iterEvents]
  · simp [iterEvents, h, Nat.pos_of_ne_zero h]

theorem retryGo_trace_blocks {α : Type} (oracle : Nat → AttemptOutcome)
    (decode : String → Option α) (target : Option α) (delay : Nat) :
    ∀ (fuel a : Nat) (lastErr : Option GoErr), 1 ≤ fuel →
      ∃ k, 1 ≤ k ∧ k ≤ fuel ∧
        (retryGo oracle decode target delay fuel a lastErr).1
          = ((List.range' a k).map (iterEvents delay)).flatten := by
  intro fuel
  induction fuel with
  | zero => intro a l h0; exact absurd h0 (by omega)
  | succ m ih =>
    intro a lastErr _
    rcases hs : retryStep decode target (oracle a) with t | e | e
    · exact ⟨1, by omega, by omega, by simp [retryGo, hs]⟩
    · exact ⟨1, by omega, by omega, by simp [retryGo, hs]⟩
    · cases Nat.eq_zero_or_pos m with
      | inl hm =>
        subst hm
        exact ⟨1, by omega, by omega, by simp [retryGo, hs]⟩
      | inr hm =>
        obtain ⟨k, hk1, hk2, htr⟩ := ih (a + 1) (some e) hm
        refine ⟨k + 1, by omega, by omega, ?_⟩
        simp only [retryGo, hs]
        rw [htr, List.range'_succ]
        simp

/-- C4: every run of the executor produces, for some number `k ≥ 1` of
executed attempts, exactly the trace `attempt 0, sleep (delay * 1),
attempt 1, sleep (delay * 2), attempt 2, …`: the caller is suspended for
`retryDelay * a` immediately before each attempt `a > 0`, and no
suspension occurs before attempt 0. -/
theorem retry_linear_backoff {α : Type} (n delay : Nat) (oracle : Nat → AttemptOutcome)
    (decode : String → Option α) (target : Option α) :
    ∃ k, 1 ≤ k ∧ k ≤ n + 1 ∧
      (runRetry n delay oracle decode target).1 = specBackoffTrace delay k := by
  obtain ⟨k, h1, h2, htr⟩ :=
    retryGo_trace_blocks oracle decode target delay (n + 1) 0 none (by omega)
  refine ⟨k, h1, h2, ?_⟩
  unfold runRetry
  rw [htr]
  unfold specBackoffTrace
  rw [List.range_eq_range']
  congr 1
  exact List.map_congr_left (fun a _ => iterEvents_eq_spec delay a)

/-- C5: `SendEvents` with `Compress = true` and an empty
`CompressionEncoding` compresses the payload with the gzip codec, tags the
request with content-encoding `"gzip"`, and — whenever the codec satisfies
the gzip round-trip law — decompressing the transmitted body gives back
the original input bytes. -/
theorem sendEvents_default_gzip (gz gzd zc : List Nat → List Nat)
    (co : ClientOptions) (ds : String) (data : List Nat) (w : Bool) (fm : String)
    (hround : ∀ bs, gzd (gz bs) = bs) :
    ∃ call, SendEvents gz zc co ds data
        (some { wait := w, compress := true, compressionEncoding := "", format := fm })
        = Except.ok call
      ∧ call.contentEncoding = "gzip"
      ∧ call.body = gz data
      ∧ gzd call.body = data :=
  ⟨_, rfl, rfl, rfl, hround data⟩

/-- Witness for C5 with the identity codec pair (which satisfies the
round-trip law) on the payload `[1, 2, 3]`. -/
theorem sendEvents_default_gzip_witness :
    (∀ bs : List Nat, (fun l => l) ((fun l : List Nat => l) bs) = bs)
    ∧ ∃ call, SendEvents (fun l => l) (fun l => l)
        { protocol := "https", host := "api.tinybird.co", apiVersion := "v0" }
        "ds" [1, 2, 3]
        (some { wait := false, compress := true, compressionEncoding := "", format := "" })
        = Except.ok call
      ∧ call.contentEncoding = "gzip"
      ∧ call.body = (fun l : List Nat => l) [1, 2, 3]
      ∧ (fun l : List Nat => l) call.body = [1, 2, 3] :=
  ⟨fun _ => rfl,
   sendEvents_default_gzip (fun l => l) (fun l => l) (fun l => l)
     { protocol := "https", host := "api.tinybird.co", apiVersion := "v0" }
     "ds" [1, 2, 3] false "" (fun _ => rfl)⟩

/-- C6: `SendEvents` with `Compress = true` and a non-empty
`CompressionEncoding` other than `"gzip"` or `"zstd"` returns the
`unsupported compression encoding` configuration error; no request
descriptor is produced, so zero network calls are made. (An empty
`CompressionEncoding` is not such a name: the code substitutes the gzip
default for it.) -/
theorem sendEvents_unsupported_encoding (gz zc : List Nat → List Nat)
    (co : ClientOptions) (ds : String) (data : List Nat) (w : Bool) (fm enc : String)
    (h1 : enc ≠ "") (h2 : enc ≠ "gzip") (h3 : enc ≠ "zstd") :
    SendEvents gz zc co ds data
        (some { wait := w, compress := true, compressionEncoding := enc, format := fm })
      = Except.error (GoErr.unsupportedEncoding enc) := by
  simp [SendEvents, h1, h2, h3]

/-- Witness for C6 at the encoding name `"brotli"`. -/
theorem sendEvents_unsupported_encoding_witness :
    (("brotli" : String) ≠ "" ∧ ("brotli" : String) ≠ "gzip" ∧ ("brotli" : String) ≠ "zstd")
    ∧ SendEvents (fun l => l) (fun l => l)
        { protocol := "https", host := "api.tinybird.co", apiVersion := "v0" }
        "ds" [1, 2, 3]
        (some { wait := false, compress := true, compressionEncoding := "brotli", format := "" })
      = Except.error (GoErr.unsupportedEncoding "brotli") :=
  ⟨⟨by decide, by decide, by decide⟩,
   sendEvents_unsupported_encoding (fun l => l) (fun l => l)
     { protocol := "https", host := "api.tinybird.co", apiVersion := "v0" }
     "ds" [1, 2, 3] false "" "brotli" (by decide) (by decide) (by decide)⟩

/-- C9: `Analyze` on a string issues a raw POST to
`<base>/analyze?url=<percent-escaped string>` with a nil body; on a byte
payload it issues a multipart upload of field `file`, file name `data`, to
`<base>/analyze`; on any other input type it returns the
`unsupported input type` configuration error, producing no request. -/
theorem analyze_dispatch (co : ClientOptions) (s : String) (b : List Nat)
    (t : String) :
    Analyze co (AnalyzeInput.str s)
        = Except.ok (HttpCall.postRaw (analyzeBaseUrl co ++ "?url=" ++ queryEscape s)
            none "" "")
    ∧ Analyze co (AnalyzeInput.bytes b)
        = Except.ok (HttpCall.postMultipart (analyzeBaseUrl co) "file" "data" b)
    ∧ Analyze co (AnalyzeInput.other t)
        = Except.error (GoErr.unsupportedInputType t) :=
  ⟨rfl, rfl, rfl⟩

theorem collectPairs_all_zero :
    ∀ (fields : List Field),
      (∀ f ∈ fields, f.exported = true → isZeroValue f.value = true) →
      collectPairs fields = [] := by
  intro fields
  induction fields with
  | nil => intro _; rfl
  | cons f rest ih =>
    intro h
    have ht : collectPairs rest = [] := ih (fun g hg => h g (by simp [hg]))
    simp only [collectPairs]
    by_cases he : f.exported
    · have hz : isZeroValue f.value = true := h f (by simp) he
      rw [if_neg (by simp [he])]
      by_cases hn : getParamName f = "" ∨ getParamName f = "-"
      · rw [if_pos hn]; exact ht
      · rw [if_neg hn, if_pos (by simpa using hz)]; exact ht
    · rw [if_pos (by simp [he])]; exact ht

/-- C7: a struct value all of whose exported fields hold their zero value
(empty string, zero number, false, nil pointer, empty slice) encodes to
the empty query string — unexported fields are skipped regardless of
their value. -/
theorem structToQueryParams_all_zero (fields : List Field)
    (h : ∀ f ∈ fields, f.exported = true → isZeroValue f.value = true) :
    StructToQueryParams (StructInput.strukt fields) = "" := by
  show valuesEncode (collectPairs fields) = ""
  rw [collectPairs_all_zero fields h]
  rfl

/-- Witness for C7 on a record with one zero exported field of each kind
plus a non-zero unexported field. -/
theorem structToQueryParams_all_zero_witness :
    (∀ f ∈ zeroFieldsExample, f.exported = true → isZeroValue f.value = true)
    ∧ StructToQueryParams (StructInput.strukt zeroFieldsExample) = "" :=
  ⟨by decide, structToQueryParams_all_zero zeroFieldsExample (by decide)⟩

/-- C8: parameter-name resolution priority — a field with a `url` tag uses
that tag's name (even when a `json` tag is also present); with no `url`
tag but a `query` tag it uses the `query` tag's name; with none of the
tags it uses the lowercase field name; and a field whose resolved name is
`-` contributes nothing to the encoded pairs. -/
theorem getParamName_tag_priority (f : Field) (rest : List Field) :
    (f.urlTag ≠ "" → getParamName f = firstTagName f.urlTag)
    ∧ (f.urlTag = "" → f.queryTag ≠ "" → getParamName f = firstTagName f.queryTag)
    ∧ (f.urlTag = "" → f.queryTag = "" → f.jsonTag = "" →
        getParamName f = lowerName f.name)
    ∧ (getParamName f = "-" → collectPairs (f :: rest) = collectPairs rest) := by
  refine ⟨?_, ?_, ?_, ?_⟩
  · intro h1
    unfold getParamName
    rw [if_pos h1]
  · intro h1 h2
    unfold getParamName
    rw [if_neg (by simp [h1]), if_pos h2]
  · intro h1 h2 h3
    unfold getParamName
    rw [if_neg (by simp [h1]), if_neg (by simp [h2]), if_neg (by simp [h3])]
  · intro h
    simp only [collectPairs]
    by_cases he : f.exported
    · rw [if_neg (by simp [he]), if_pos (Or.inr h)]
    · rw [if_pos (by simp [he])]

/-- Witness for C8: a field tagged `url:"u,omitempty"` and `json:"j"`
resolves to `u`; one tagged only `query:"q"` and `json:"j"` resolves to
`q`; an untagged field `Limit` resolves to `limit`; and a field tagged
`url:"-"` is omitted from the pairs. -/
theorem getParamName_tag_priority_witness :
    (("u,omitempty" : String) ≠ "" ∧ ("q" : String) ≠ ""
      ∧ getParamName ⟨"A", "-", "", "j", true, FieldValue.str "x"⟩ = "-")
    ∧ getParamName ⟨"A", "u,omitempty", "q", "j", true, FieldValue.str "x"⟩ = "u"
    ∧ getParamName ⟨"A", "", "q", "j", true, FieldValue.str "x"⟩ = "q"
    ∧ getParamName ⟨"Limit", "", "", "", true, FieldValue.str "x"⟩ = "limit"
    ∧ collectPairs [⟨"A", "-", "", "j", true, FieldValue.str "x"⟩] = collectPairs [] := by
  refine ⟨⟨by decide, by decide, by decide⟩, ?_, ?_, ?_, ?_⟩
  · exact ((getParamName_tag_priority
      ⟨"A", "u,omitempty", "q", "j", true, FieldValue.str "x"⟩ []).1
        (by decide)).trans (by decide)
  · exact ((getParamName_tag_priority
      ⟨"A", "", "q", "j", true, FieldValue.str "x"⟩ []).2.1 rfl (by decide)).trans
        (by decide)
  · exact ((getParamName_tag_priority
      ⟨"Limit", "", "", "", true, FieldValue.str "x"⟩ []).2.2.1 rfl rfl rfl).trans
        (by decide)
  · exact (getParamName_tag_priority
      ⟨"A", "-", "", "j", true, FieldValue.str "x"⟩ []).2.2.2 (by decide)

end Tinybird
